import Mathlib

/-!
Shallow embedding of the bulk lead-scoring engine of app/services/scoring.py.

Python strings are modelled as lists of characters (`PyStr`); Python integers
as `Int`; Python values appearing in offer dictionaries as the inductive
`PyV`; Python dictionaries as association lists (`PyDict`).  The external
text-classification capability is modelled as an explicit per-batch behaviour
parameter (`BatchBehavior`), and the nondeterministic completion order of the
thread pool as an explicit list of batch indices.
-/

/-- Python strings, modelled as lists of characters. -/
abbrev PyStr := List Char

/-- Coerce a Lean string literal to a modelled Python string. -/
def chars (s : String) : PyStr := s.data

/-- Python str.lower, per character (the engine only handles ASCII markers). -/
def pyLower (s : PyStr) : PyStr := s.map Char.toLower

/-- Python str.upper, per character. -/
def pyUpper (s : PyStr) : PyStr := s.map Char.toUpper

/-- The whitespace characters recognised by Python str.strip and str.split. -/
def pyIsSpace (c : Char) : Bool :=
  c = ' ' || c = '\t' || c = '\n' || c = '\r' || c = '\x0b' || c = '\x0c'

/-- Python str.strip: remove leading and trailing whitespace. -/
def pyStrip (s : PyStr) : PyStr :=
  ((s.dropWhile pyIsSpace).reverse.dropWhile pyIsSpace).reverse

/-- Helper for `pySplitWs`: accumulate the current token (reversed). -/
def splitWsAux : PyStr → PyStr → List PyStr
  | [], acc => if acc.isEmpty then [] else [acc.reverse]
  | c :: rest, acc =>
    if pyIsSpace c then
      if acc.isEmpty then splitWsAux rest []
      else acc.reverse :: splitWsAux rest []
    else splitWsAux rest (c :: acc)

/-- Python str.split() with no argument: split on whitespace runs,
never producing empty tokens. -/
def pySplitWs (s : PyStr) : List PyStr := splitWsAux s []

/-- Helper for `splitOnChar`: accumulate the current piece (reversed). -/
def splitOnCharAux (sep : Char) : PyStr → PyStr → List PyStr
  | [], acc => [acc.reverse]
  | c :: rest, acc =>
    if c = sep then acc.reverse :: splitOnCharAux sep rest []
    else splitOnCharAux sep rest (c :: acc)

/-- Python str.split(sep) for a one-character separator. -/
def splitOnChar (sep : Char) (s : PyStr) : List PyStr := splitOnCharAux sep s []

/-- Does the second list start with the first one? -/
def startsWithChars : PyStr → PyStr → Bool
  | [], _ => true
  | _ :: _, [] => false
  | p :: ps, c :: cs => p = c && startsWithChars ps cs

/-- Python substring containment: `p in s` for strings. -/
def isSubstr (p : PyStr) : PyStr → Bool
  | [] => startsWithChars p []
  | c :: rest => startsWithChars p (c :: rest) || isSubstr p rest

/-- Python `c in s` for a single character. -/
def containsChar (c : Char) (s : PyStr) : Bool := s.any (fun d => d = c)

/-- The part of the string after the first occurrence of `sep`
(Python s.split(sep, 1)[-1] when `sep` occurs in `s`). -/
def afterFirstChar (sep : Char) : PyStr → PyStr
  | [] => []
  | c :: rest => if c = sep then rest else afterFirstChar sep rest

/-- Python values stored in offer dictionaries: strings, lists, or None. -/
inductive PyV where
  | vstr : PyStr → PyV
  | vlist : List PyV → PyV
  | vnone : PyV

mutual

/-- Boolean equality on modelled Python values. -/
def pyVBeq : PyV → PyV → Bool
  | .vstr x, .vstr y => x == y
  | .vlist x, .vlist y => pyVBeqList x y
  | .vnone, .vnone => true
  | .vstr _, .vlist _ => false
  | .vstr _, .vnone => false
  | .vlist _, .vstr _ => false
  | .vlist _, .vnone => false
  | .vnone, .vstr _ => false
  | .vnone, .vlist _ => false

/-- Boolean equality on lists of modelled Python values. -/
def pyVBeqList : List PyV → List PyV → Bool
  | [], [] => true
  | x :: xs, y :: ys => pyVBeq x y && pyVBeqList xs ys
  | [], _ :: _ => false
  | _ :: _, [] => false

end

mutual

theorem pyVBeq_iff : ∀ (a b : PyV), pyVBeq a b = true ↔ a = b
  | .vstr x, .vstr y => by simp [pyVBeq]
  | .vlist x, .vlist y => by simp [pyVBeq, pyVBeqList_iff x y]
  | .vnone, .vnone => by simp [pyVBeq]
  | .vstr _, .vlist _ => by simp [pyVBeq]
  | .vstr _, .vnone => by simp [pyVBeq]
  | .vlist _, .vstr _ => by simp [pyVBeq]
  | .vlist _, .vnone => by simp [pyVBeq]
  | .vnone, .vstr _ => by simp [pyVBeq]
  | .vnone, .vlist _ => by simp [pyVBeq]

theorem pyVBeqList_iff : ∀ (a b : List PyV), pyVBeqList a b = true ↔ a = b
  | [], [] => by simp [pyVBeqList]
  | [], _ :: _ => by simp [pyVBeqList]
  | _ :: _, [] => by simp [pyVBeqList]
  | x :: xs, y :: ys => by
      simp [pyVBeqList, pyVBeq_iff x y, pyVBeqList_iff xs ys]

end

instance : DecidableEq PyV := fun a b =>
  decidable_of_iff (pyVBeq a b = true) (pyVBeq_iff a b)

/-- Python truthiness for the modelled values. -/
def pyTruthy : PyV → Bool
  | .vstr s => !s.isEmpty
  | .vlist l => !l.isEmpty
  | .vnone => false

/-- The apostrophe character used by Python repr of strings. -/
def quoteChar : Char := Char.ofNat 39

/-- Comma-separated join, as used by Python list rendering. -/
def joinCommaStr : List PyStr → PyStr
  | [] => []
  | [s] => s
  | s :: rest => s ++ chars ", " ++ joinCommaStr rest

mutual

/-- Python str() of a modelled value. -/
def pyStrOf : PyV → PyStr
  | .vstr s => s
  | .vnone => chars "None"
  | .vlist l => '[' :: joinCommaStr (pyReprList l) ++ [']']

/-- Python repr() of a modelled value (string escaping is not modelled:
no value the engine stringifies contains quote characters). -/
def pyReprOf : PyV → PyStr
  | .vstr s => quoteChar :: s ++ [quoteChar]
  | .vnone => chars "None"
  | .vlist l => '[' :: joinCommaStr (pyReprList l) ++ [']']

/-- Python repr() of each element of a list. -/
def pyReprList : List PyV → List PyStr
  | [] => []
  | v :: vs => pyReprOf v :: pyReprList vs

end

/-- Python dictionaries with string keys, as association lists in
insertion order. -/
abbrev PyDict := List (PyStr × PyV)

/-- Python d.get(k, default). -/
def dictGetD (d : PyDict) (k : PyStr) (dflt : PyV) : PyV :=
  match d.find? (fun kv => kv.1 == k) with
  | some kv => kv.2
  | none => dflt

/-- Python d[k] = v: replace the value in place if the key is present
(Python dicts keep the key's position), otherwise append. -/
def dictSet (d : PyDict) (k : PyStr) (v : PyV) : PyDict :=
  match d with
  | [] => [(k, v)]
  | kv :: rest => if kv.1 == k then (k, v) :: rest else kv :: dictSet rest k v

/-- Key "name" of an offer dictionary. -/
def kName : PyStr := chars "name"

/-- Key "value_props" of an offer dictionary. -/
def kValueProps : PyStr := chars "value_props"

/-- Key "ideal_use_cases" of an offer dictionary. -/
def kIdealUseCases : PyStr := chars "ideal_use_cases"

/-- A lead record.  The scoring code reads fields with prospect.get(field, ''),
so an absent field and an empty field are indistinguishable to it; both are
modelled as the empty string. -/
structure Lead where
  name : PyStr := []
  role : PyStr := []
  company : PyStr := []
  industry : PyStr := []
  location : PyStr := []
  linkedin_bio : PyStr := []
deriving DecidableEq

instance : Inhabited Lead := ⟨{}⟩

/-- The ScoringWeights dataclass of scoring.py. -/
structure ScoringWeights where
  DECISION_MAKER_SCORE : Int := 30
  INFLUENCER_SCORE : Int := 15
  EXACT_ICP_SCORE : Int := 25
  ADJACENT_ICP_SCORE : Int := 10
  COMPLETENESS_SCORE : Int := 10
  AI_HIGH_SCORE : Int := 50
  AI_MEDIUM_SCORE : Int := 30
  AI_LOW_SCORE : Int := 10

/-- The weights instance held by the Scoring class (all defaults). -/
def weights : ScoringWeights := {}

/-- Scoring.batch_size. -/
def batch_size : Nat := 10

/-- Scoring.max_workers.  It only bounds how many batches are in flight at
once; it does not affect the value computed, so it plays no further role in
the embedding. -/
def max_workers : Nat := 3

/-- Scoring.decision_makers.  A Python set; only membership is used, so a
list is a faithful model. -/
def decision_makers : List PyStr :=
  [chars "ceo", chars "cto", chars "cfo", chars "president", chars "founder",
   chars "co-founder", chars "head of", chars "director", chars "vp",
   chars "chief", chars "owner"]

/-- Scoring.influencers. -/
def influencers : List PyStr :=
  [chars "manager", chars "senior", chars "lead", chars "architect",
   chars "principal"]

/-- Scoring._role_score. -/
def _role_score (role : PyStr) : Int :=
  if role.isEmpty then 0
  else
    let role_clean := pyStrip (pyLower role)
    if decision_makers.any (fun dm => isSubstr dm role_clean) then
      weights.DECISION_MAKER_SCORE
    else if influencers.any (fun m => isSubstr m role_clean) then
      weights.INFLUENCER_SCORE
    else 0

/-- The for-loop of Scoring._industry_score over the use cases, with
industry_lower already computed. -/
def industryMatchLoop (industry_lower : PyStr) : List PyV → Int
  | [] => 0
  | use_case :: rest =>
    let use_case_lower := pyStrip (pyLower (pyStrOf use_case))
    if industry_lower = use_case_lower then weights.EXACT_ICP_SCORE
    else
      let industry_keywords := pySplitWs industry_lower
      let use_case_keywords := pySplitWs use_case_lower
      if industry_keywords.any (fun k => use_case_keywords.contains k) then
        weights.ADJACENT_ICP_SCORE
      else if industry_keywords.any (fun k => isSubstr k use_case_lower)
          || use_case_keywords.any (fun k => isSubstr k industry_lower) then
        weights.ADJACENT_ICP_SCORE
      else industryMatchLoop industry_lower rest

/-- Scoring._industry_score.  A truthy non-list ideal_use_cases value can
only be a string, which Python iterates character by character. -/
def _industry_score (industry : PyStr) (offer_data : PyDict) : Int :=
  if industry.isEmpty || offer_data.isEmpty then 0
  else
    let ideal_use_cases := dictGetD offer_data kIdealUseCases (.vlist [])
    if !pyTruthy ideal_use_cases then 0
    else
      match ideal_use_cases with
      | .vlist l => industryMatchLoop (pyStrip (pyLower industry)) l
      | .vstr s =>
          industryMatchLoop (pyStrip (pyLower industry))
            (s.map (fun c => .vstr [c]))
      | .vnone => 0

/-- The values of Scoring.required_fields in the prospect, in a fixed
order (the set iteration order does not matter: only a count is taken). -/
def required_field_values (prospect : Lead) : List PyStr :=
  [prospect.name, prospect.role, prospect.company, prospect.industry]

/-- Scoring._completeness_score. -/
def _completeness_score (prospect : Lead) : Int :=
  let filled_count :=
    (required_field_values prospect).countP (fun v => !(pyStrip v).isEmpty)
  if filled_count = 4 then weights.COMPLETENESS_SCORE else 0

/-- Scoring.calculate_rule_score. -/
def calculate_rule_score (prospect : Lead) (offer_data : PyDict) : Int :=
  _role_score prospect.role
    + _industry_score prospect.industry offer_data
    + _completeness_score prospect

example : _role_score (chars "CEO") = 30 := by decide
example : _role_score (chars "Senior Engineer") = 15 := by decide
example : _role_score (chars "Intern") = 0 := by decide
example : pyStrOf (.vstr (chars "x")) = chars "x" := by decide
example : pyStrOf (.vlist [.vstr (chars "a")]) = chars "['a']" := by rfl

/-- A scoring result triple (intent, score, reasoning), as returned by the
engine.  Intents are the Python strings "High", "Medium", "Low". -/
structure ScoreResult where
  intent : PyStr
  score : Int
  reasoning : PyStr
deriving DecidableEq, Inhabited

/-- The marker text "PROSPECT k:" searched for in each response line. -/
def prospectMarker (k : Nat) : PyStr :=
  chars "PROSPECT " ++ (toString k).data ++ [':']

/-- The body of the parsing loop of Scoring._parse_batch_response for one
expected ordinal (0-based `i`, 1-based marker).  Nothing in the Python loop
body can raise, so its try/except arm is dead code and is not modelled. -/
def parseProspect (lines : List PyStr) (i : Nat) : ScoreResult :=
  match lines.find? (fun line => isSubstr (prospectMarker (i + 1)) (pyUpper line)) with
  | some prospect_line =>
    let intentScore : PyStr × Int :=
      if isSubstr (chars "HIGH") (pyUpper prospect_line) then
        (chars "High", weights.AI_HIGH_SCORE)
      else if isSubstr (chars "MEDIUM") (pyUpper prospect_line) then
        (chars "Medium", weights.AI_MEDIUM_SCORE)
      else
        (chars "Low", weights.AI_LOW_SCORE)
    let reasoning :=
      if containsChar '-' prospect_line then
        pyStrip (afterFirstChar '-' prospect_line)
      else prospect_line
    ⟨intentScore.1, intentScore.2, reasoning⟩
  | none => ⟨chars "Low", weights.AI_LOW_SCORE, chars "Could not parse AI response"⟩

/-- The non-blank stripped lines of a response
(Scoring._parse_batch_response, first statement). -/
def nonBlankLines (response : PyStr) : List PyStr :=
  ((splitOnChar '\n' response).map pyStrip).filter (fun l => !l.isEmpty)

/-- Scoring._parse_batch_response. -/
def _parse_batch_response (response : PyStr) (expected_count : Nat) :
    List ScoreResult :=
  let lines := nonBlankLines response
  (List.range expected_count).map (fun i => parseProspect lines i)

/-- Offer-like inputs accepted by Scoring._normalize_offer_data: a dict, a
non-dict object exposing a name attribute (value_props / ideal_use_cases
attributes possibly absent), a bare list, or any other scalar (carried as
its str() rendering, which is all the code uses of it). -/
inductive OfferData where
  | pydict : PyDict → OfferData
  | obj (name : PyV) (value_props : Option PyV) (ideal_use_cases : Option PyV) : OfferData
  | pylist : List PyV → OfferData
  | scalar : PyStr → OfferData
deriving DecidableEq

/-- Python getattr(o, attr, []) or []: absent or falsy attribute values
become the empty list; all other values pass through unchanged. -/
def attrOrEmptyList : Option PyV → PyV
  | none => .vlist []
  | some v => if pyTruthy v then v else .vlist []

/-- The list coercion of the dict branch of Scoring._normalize_offer_data:
a non-list value becomes [str(v)] when truthy, else []. -/
def coerceList (v : PyV) : PyV :=
  match v with
  | .vlist _ => v
  | _ => if pyTruthy v then .vlist [.vstr (pyStrOf v)] else .vlist []

/-- Scoring._normalize_offer_data. -/
def _normalize_offer_data : OfferData → PyDict
  | .obj name value_props ideal_use_cases =>
      [(kName, name),
       (kValueProps, attrOrEmptyList value_props),
       (kIdealUseCases, attrOrEmptyList ideal_use_cases)]
  | .pylist items =>
      [(kName, .vstr (chars "N/A")),
       (kValueProps, .vlist []),
       (kIdealUseCases, .vlist items)]
  | .scalar s =>
      [(kName, .vstr s),
       (kValueProps, .vlist []),
       (kIdealUseCases, .vlist [])]
  | .pydict d =>
      let normalized_offer := d
      let value_props := coerceList (dictGetD normalized_offer kValueProps (.vlist []))
      let ideal_use_cases := coerceList (dictGetD normalized_offer kIdealUseCases (.vlist []))
      dictSet (dictSet normalized_offer kValueProps value_props)
        kIdealUseCases ideal_use_cases

/-- The behaviour of one batch of the run: the external classification call
returned a completion text, or it (or the prompt build) raised inside
_process_batch, or the future itself failed at collection time in
ai_intent_score_bulk (timeout of future.result, etc.).  The exception text
is carried as the Python str(e). -/
inductive BatchBehavior where
  | ok : PyStr → BatchBehavior
  | clientError : PyStr → BatchBehavior
  | futureError : PyStr → BatchBehavior
deriving DecidableEq

/-- Is this behaviour a failure of the external classification call? -/
def BatchBehavior.isFail : BatchBehavior → Bool
  | .ok _ => false
  | .clientError _ => true
  | .futureError _ => true

/-- The per-lead fallback of the except arm of Scoring._process_batch. -/
def aiUnavailable (e : PyStr) : ScoreResult :=
  ⟨chars "Low", weights.AI_LOW_SCORE, chars "AI unavailable: " ++ e⟩

/-- The per-lead fallback of the except arm of the collection loop of
Scoring.ai_intent_score_bulk. -/
def batchFailed (e : PyStr) : ScoreResult :=
  ⟨chars "Low", weights.AI_LOW_SCORE, chars "Batch failed: " ++ e⟩

/-- Scoring._process_batch.  The prompt built from the batch and the offer
only influences the external completion text, which is the explicit `call`
parameter here, so the prompt string itself plays no role in the model. -/
def _process_batch (prospects_batch : List Lead) (call : Except PyStr PyStr) :
    List ScoreResult :=
  match call with
  | .ok content => _parse_batch_response (pyStrip content) prospects_batch.length
  | .error e => prospects_batch.map (fun _ => aiUnavailable e)

/-- The results contributed by one batch once its future is collected:
either the _process_batch results (themselves absorbing client errors), or
the wholesale fallback of the collection loop when the future fails. -/
def batchSegment (batch : List Lead) (b : BatchBehavior) : List ScoreResult :=
  match b with
  | .ok response => _process_batch batch (.ok response)
  | .clientError e => _process_batch batch (.error e)
  | .futureError e => batch.map (fun _ => batchFailed e)

/-- Helper for `pyChunks`: walk the list with the remaining capacity `c` of
the chunk being accumulated (reversed) in `acc`. -/
def chunksAux (n : Nat) : List α → List α → Nat → List (List α)
  | [], acc, _ => if acc.isEmpty then [] else [acc.reverse]
  | x :: xs, acc, c =>
      if c ≤ 1 then (x :: acc).reverse :: chunksAux n xs [] n
      else chunksAux n xs (x :: acc) (c - 1)

/-- The batching [prospects[i:i+batch_size] for i in range(0, len, batch_size)]
of Scoring.ai_intent_score_bulk: contiguous chunks of size `n` (n ≥ 1), the
last chunk possibly smaller, in the original order. -/
def pyChunks (n : Nat) (l : List α) : List (List α) := chunksAux n l [] n

/-- Scoring.ai_intent_score_bulk.  The thread pool completes batch futures
in a nondeterministic order; as_completed yields each future exactly once,
in completion order, which the embedding takes as the explicit parameter
`completionOrder` (a permutation of the batch indices).  The collection
loop extends all_results in that order.  `behave` gives each batch's
outcome.  The offer is normalized and then used only in the prompts, which
are absorbed into `behave`. -/
def ai_intent_score_bulk (prospects : List Lead) (offer_data : OfferData)
    (behave : Nat → BatchBehavior) (completionOrder : List Nat) :
    List ScoreResult :=
  if prospects.isEmpty then []
  else
    let _offer_data := _normalize_offer_data offer_data
    let batches := pyChunks batch_size prospects
    (completionOrder.map (fun j => batchSegment (batches.getD j []) (behave j))).flatten

/-- Scoring.final_score_bulk.  leads[i] is modelled with a default for the
out-of-range case, which cannot occur: the classification result list has
exactly one entry per lead. -/
def final_score_bulk (leads : List Lead) (offer_data : OfferData)
    (behave : Nat → BatchBehavior) (completionOrder : List Nat) :
    List ScoreResult :=
  if leads.isEmpty then []
  else
    let offer_norm := _normalize_offer_data offer_data
    let ai_results := ai_intent_score_bulk leads (.pydict offer_norm) behave completionOrder
    ai_results.enum.map (fun p =>
      let rule_score := calculate_rule_score (leads.getD p.1 default) offer_norm
      ⟨p.2.intent, rule_score + p.2.score, p.2.reasoning⟩)

example :
    _parse_batch_response
      (chars "PROSPECT 1: HIGH - good fit\nPROSPECT 3: LOW - no budget") 3 =
    [⟨chars "High", 50, chars "good fit"⟩,
     ⟨chars "Low", 10, chars "Could not parse AI response"⟩,
     ⟨chars "Low", 10, chars "no budget"⟩] := by decide

example :
    pyChunks 10 (List.replicate 11 (0 : Nat)) =
      [List.replicate 10 0, [0]] := by decide

/-! Helper lemmas about the embedding. -/

theorem _parse_batch_response_length (response : PyStr) (n : Nat) :
    (_parse_batch_response response n).length = n := by
  simp [_parse_batch_response]

theorem batchSegment_length (batch : List Lead) (b : BatchBehavior) :
    (batchSegment batch b).length = batch.length := by
  cases b with
  | ok response => simp [batchSegment, _process_batch, _parse_batch_response_length]
  | clientError e => simp [batchSegment, _process_batch]
  | futureError e => simp [batchSegment]

theorem chunksAux_flatten (n : Nat) :
    ∀ (l acc : List α) (c : Nat), (chunksAux n l acc c).flatten = acc.reverse ++ l := by
  intro l
  induction l with
  | nil =>
    intro acc c
    by_cases h : acc.isEmpty
    · simp [chunksAux, h, List.isEmpty_iff.mp h]
    · simp [chunksAux, h]
  | cons x xs ih =>
    intro acc c
    rw [chunksAux]
    by_cases h : c ≤ 1
    · simp [h, ih]
    · simp [h, ih]

theorem pyChunks_flatten (n : Nat) (l : List α) : (pyChunks n l).flatten = l := by
  simp [pyChunks, chunksAux_flatten]

theorem sum_range_getD_length {α : Type} (bs : List (List α)) :
    ((List.range bs.length).map (fun j => (bs.getD j []).length)).sum
      = (bs.map List.length).sum := by
  induction bs with
  | nil => simp
  | cons b rest ih =>
    rw [List.length_cons, List.range_succ_eq_map, List.map_cons, List.map_map,
        List.sum_cons, List.map_cons, List.sum_cons]
    simp only [Function.comp_def, Nat.succ_eq_add_one, List.getD_cons_zero,
      List.getD_cons_succ]
    rw [ih]

theorem ai_intent_score_bulk_length (prospects : List Lead) (offer_data : OfferData)
    (behave : Nat → BatchBehavior) (completionOrder : List Nat)
    (h : completionOrder.Perm (List.range (pyChunks batch_size prospects).length)) :
    (ai_intent_score_bulk prospects offer_data behave completionOrder).length
      = prospects.length := by
  unfold ai_intent_score_bulk
  by_cases hps : prospects.isEmpty
  · simp [hps, List.isEmpty_iff.mp hps]
  · simp only [hps, Bool.false_eq_true, if_false]
    rw [List.length_flatten, List.map_map]
    have hmap := h.map
      (fun j => (batchSegment ((pyChunks batch_size prospects).getD j []) (behave j)).length)
    simp only [Function.comp_def]
    rw [List.Perm.sum_eq hmap]
    have : ∀ j, (batchSegment ((pyChunks batch_size prospects).getD j []) (behave j)).length
        = ((pyChunks batch_size prospects).getD j []).length := fun j => batchSegment_length _ _
    simp only [Function.comp, this]
    rw [sum_range_getD_length (pyChunks batch_size prospects), ← List.length_flatten,
      pyChunks_flatten]

theorem final_score_bulk_length_aux (leads : List Lead) (offer_data : OfferData)
    (behave : Nat → BatchBehavior) (completionOrder : List Nat)
    (h : completionOrder.Perm (List.range (pyChunks batch_size leads).length)) :
    (final_score_bulk leads offer_data behave completionOrder).length = leads.length := by
  unfold final_score_bulk
  by_cases hl : leads.isEmpty
  · simp [hl, List.isEmpty_iff.mp hl]
  · simp only [hl, Bool.false_eq_true, if_false]
    rw [List.length_map, List.enum_length]
    exact ai_intent_score_bulk_length _ _ _ _ h

theorem mem_ai_intent_score_bulk (prospects : List Lead) (offer_data : OfferData)
    (behave : Nat → BatchBehavior) (completionOrder : List Nat) (r : ScoreResult)
    (hr : r ∈ ai_intent_score_bulk prospects offer_data behave completionOrder) :
    ∃ j, r ∈ batchSegment ((pyChunks batch_size prospects).getD j []) (behave j) := by
  unfold ai_intent_score_bulk at hr
  by_cases hps : prospects.isEmpty
  · simp [hps] at hr
  · simp only [hps, Bool.false_eq_true, if_false] at hr
    rw [List.mem_flatten] at hr
    obtain ⟨seg, hseg, hrs⟩ := hr
    rw [List.mem_map] at hseg
    obtain ⟨j, _, rfl⟩ := hseg
    exact ⟨j, hrs⟩

theorem batchSegment_fail_mem (batch : List Lead) (b : BatchBehavior)
    (hb : b.isFail = true) (r : ScoreResult) (hr : r ∈ batchSegment batch b) :
    r.intent = chars "Low" ∧ r.score = 10 ∧
      ((∃ e, b = .clientError e ∧ r.reasoning = chars "AI unavailable: " ++ e) ∨
       (∃ e, b = .futureError e ∧ r.reasoning = chars "Batch failed: " ++ e)) := by
  cases b with
  | ok response => simp [BatchBehavior.isFail] at hb
  | clientError e =>
    simp only [batchSegment, _process_batch, List.mem_map] at hr
    obtain ⟨_, _, rfl⟩ := hr
    exact ⟨rfl, rfl, Or.inl ⟨e, rfl, rfl⟩⟩
  | futureError e =>
    simp only [batchSegment, List.mem_map] at hr
    obtain ⟨_, _, rfl⟩ := hr
    exact ⟨rfl, rfl, Or.inr ⟨e, rfl, rfl⟩⟩

theorem parseProspect_shape (lines : List PyStr) (i : Nat) :
    (parseProspect lines i).intent = chars "High" ∧ (parseProspect lines i).score = 50 ∨
    (parseProspect lines i).intent = chars "Medium" ∧ (parseProspect lines i).score = 30 ∨
    (parseProspect lines i).intent = chars "Low" ∧ (parseProspect lines i).score = 10 := by
  unfold parseProspect
  cases hf : lines.find? (fun line => isSubstr (prospectMarker (i + 1)) (pyUpper line)) with
  | none => exact Or.inr (Or.inr ⟨rfl, rfl⟩)
  | some line =>
    by_cases h1 : isSubstr (chars "HIGH") (pyUpper line)
    · simp [h1]
      exact Or.inl rfl
    · by_cases h2 : isSubstr (chars "MEDIUM") (pyUpper line)
      · simp [h1, h2]
        exact Or.inr (Or.inl rfl)
      · simp [h1, h2]
        exact Or.inr (Or.inr rfl)

theorem mem_batchSegment_shape (batch : List Lead) (b : BatchBehavior)
    (r : ScoreResult) (hr : r ∈ batchSegment batch b) :
    r.intent = chars "High" ∧ r.score = 50 ∨
    r.intent = chars "Medium" ∧ r.score = 30 ∨
    r.intent = chars "Low" ∧ r.score = 10 := by
  cases b with
  | ok response =>
    simp only [batchSegment, _process_batch, _parse_batch_response,
      List.mem_map] at hr
    obtain ⟨i, _, rfl⟩ := hr
    exact parseProspect_shape _ i
  | clientError e =>
    simp only [batchSegment, _process_batch, List.mem_map] at hr
    obtain ⟨_, _, rfl⟩ := hr
    exact Or.inr (Or.inr ⟨rfl, rfl⟩)
  | futureError e =>
    simp only [batchSegment, List.mem_map] at hr
    obtain ⟨_, _, rfl⟩ := hr
    exact Or.inr (Or.inr ⟨rfl, rfl⟩)

theorem mem_ai_bulk_shape (prospects : List Lead) (offer_data : OfferData)
    (behave : Nat → BatchBehavior) (completionOrder : List Nat) (r : ScoreResult)
    (hr : r ∈ ai_intent_score_bulk prospects offer_data behave completionOrder) :
    r.intent = chars "High" ∧ r.score = 50 ∨
    r.intent = chars "Medium" ∧ r.score = 30 ∨
    r.intent = chars "Low" ∧ r.score = 10 := by
  obtain ⟨j, hj⟩ := mem_ai_intent_score_bulk _ _ _ _ _ hr
  exact mem_batchSegment_shape _ _ _ hj

theorem _role_score_cases (role : PyStr) :
    _role_score role = 0 ∨ _role_score role = 15 ∨ _role_score role = 30 := by
  unfold _role_score
  by_cases h0 : role.isEmpty
  · simp [h0]
  · simp only [h0, Bool.false_eq_true, if_false]
    by_cases h1 : decision_makers.any
        (fun dm => isSubstr dm (pyStrip (pyLower role)))
    · simp [h1, weights]
    · by_cases h2 : influencers.any
          (fun m => isSubstr m (pyStrip (pyLower role)))
      · simp [h1, h2, weights]
      · simp [h1, h2]

theorem industryMatchLoop_cases (il : PyStr) :
    ∀ l : List PyV, industryMatchLoop il l = 0 ∨ industryMatchLoop il l = 10 ∨
      industryMatchLoop il l = 25 := by
  intro l
  induction l with
  | nil => simp [industryMatchLoop]
  | cons u rest ih =>
    show industryMatchLoop il (u :: rest) = 0 ∨ _ ∨ _
    rw [industryMatchLoop]
    split
    · exact Or.inr (Or.inr rfl)
    · dsimp only
      split
      · exact Or.inr (Or.inl rfl)
      · split
        · exact Or.inr (Or.inl rfl)
        · exact ih

theorem _industry_score_cases (industry : PyStr) (offer_data : PyDict) :
    _industry_score industry offer_data = 0 ∨
    _industry_score industry offer_data = 10 ∨
    _industry_score industry offer_data = 25 := by
  unfold _industry_score
  by_cases h0 : industry.isEmpty || offer_data.isEmpty
  · simp [h0]
  · simp only [h0, Bool.false_eq_true, if_false]
    cases hv : dictGetD offer_data kIdealUseCases (.vlist []) with
    | vstr s =>
      by_cases ht : pyTruthy (PyV.vstr s) <;>
        simp [ht, industryMatchLoop_cases]
    | vlist l =>
      by_cases ht : pyTruthy (PyV.vlist l) <;>
        simp [ht, industryMatchLoop_cases]
    | vnone => simp [pyTruthy]

theorem _completeness_score_cases (prospect : Lead) :
    _completeness_score prospect = 0 ∨ _completeness_score prospect = 10 := by
  unfold _completeness_score
  by_cases h : (required_field_values prospect).countP
      (fun v => !(pyStrip v).isEmpty) = 4
  · simp [h, weights]
  · simp [h]

theorem calculate_rule_score_nonneg (prospect : Lead) (offer_data : PyDict) :
    0 ≤ calculate_rule_score prospect offer_data := by
  unfold calculate_rule_score
  rcases _role_score_cases prospect.role with h1 | h1 | h1 <;>
    rcases _industry_score_cases prospect.industry offer_data with h2 | h2 | h2 <;>
      rcases _completeness_score_cases prospect with h3 | h3 <;>
        rw [h1, h2, h3] <;> norm_num

/-- Is a key present in a modelled dictionary? -/
def dictHasKey (d : PyDict) (k : PyStr) : Bool := d.any (fun kv => kv.1 == k)

theorem dictGetD_dictSet_same (d : PyDict) (k : PyStr) (v dflt : PyV) :
    dictGetD (dictSet d k v) k dflt = v := by
  induction d with
  | nil => simp [dictSet, dictGetD]
  | cons kv rest ih =>
    by_cases h : kv.1 == k
    · simp [dictSet, h, dictGetD]
    · simp only [dictSet, h, Bool.false_eq_true, if_false]
      simp only [dictGetD, List.find?] at ih ⊢
      cases hb : (kv.1 == k) with
      | true => exact absurd hb h
      | false =>
        simp only [hb]
        exact ih

theorem dictGetD_dictSet_ne (d : PyDict) (k1 k2 : PyStr) (v dflt : PyV)
    (h : (k1 == k2) = false) :
    dictGetD (dictSet d k1 v) k2 dflt = dictGetD d k2 dflt := by
  induction d with
  | nil => simp [dictSet, dictGetD, List.find?, h]
  | cons kv rest ih =>
    by_cases hk : kv.1 == k1
    · have hk2 : (kv.1 == k2) = false := by
        rw [beq_iff_eq] at hk
        rw [hk]
        exact h
      simp only [dictSet, hk, if_true]
      simp only [dictGetD, List.find?, h, hk2]
    · simp only [dictSet, hk, Bool.false_eq_true, if_false]
      simp only [dictGetD, List.find?] at ih ⊢
      cases hkv2 : (kv.1 == k2) with
      | true => rfl
      | false => exact ih

theorem dictHasKey_dictSet_self (d : PyDict) (k : PyStr) (v : PyV) :
    dictHasKey (dictSet d k v) k = true := by
  induction d with
  | nil => simp [dictSet, dictHasKey]
  | cons kv rest ih =>
    by_cases h : kv.1 == k
    · simp [dictSet, h, dictHasKey]
    · simp only [dictSet, h, Bool.false_eq_true, if_false]
      simp only [dictHasKey, List.any_cons] at ih ⊢
      rw [ih, Bool.or_true]

theorem dictHasKey_dictSet_mono (d : PyDict) (k1 k2 : PyStr) (v : PyV)
    (h : dictHasKey d k2 = true) : dictHasKey (dictSet d k1 v) k2 = true := by
  induction d with
  | nil => simp [dictHasKey] at h
  | cons kv rest ih =>
    simp only [dictHasKey, List.any_cons, Bool.or_eq_true] at h
    by_cases hk : kv.1 == k1
    · simp only [dictSet, hk, if_true]
      simp only [dictHasKey, List.any_cons, Bool.or_eq_true]
      rcases h with h | h
      · left
        rw [beq_iff_eq] at hk ⊢
        rw [← hk]
        rw [beq_iff_eq] at h
        exact h
      · right
        exact h
    · simp only [dictSet, hk, Bool.false_eq_true, if_false]
      simp only [dictHasKey, List.any_cons, Bool.or_eq_true]
      rcases h with h | h
      · left; exact h
      · right; exact ih h

theorem dictSet_self_of_getD (d : PyDict) (k : PyStr) (v dflt : PyV)
    (hk : dictHasKey d k = true) (hv : dictGetD d k dflt = v) :
    dictSet d k v = d := by
  induction d with
  | nil => simp [dictHasKey] at hk
  | cons kv rest ih =>
    by_cases h : kv.1 == k
    · simp only [dictSet, h, if_true]
      simp only [dictGetD, List.find?, h] at hv
      have hkeq : kv.1 = k := beq_iff_eq.mp h
      rw [← hv, ← hkeq]
    · simp only [dictSet, h, Bool.false_eq_true, if_false]
      simp only [dictHasKey, List.any_cons, h, Bool.or_eq_true, Bool.false_eq_true,
        false_or] at hk
      simp only [dictGetD, List.find?, h] at hv
      have hv2 : dictGetD rest k dflt = v := hv
      rw [ih hk hv2]

/-- Does an object attribute hold a list, a falsy value, or nothing?
This is the shape on which the attribute branch of normalization already
produces a list-valued entry. -/
def attrListOrFalsy : Option PyV → Bool
  | none => true
  | some (.vlist _) => true
  | some v => !pyTruthy v

/-- The offer-like inputs on which normalization is idempotent: everything
except an attribute object carrying a truthy non-list value_props or
ideal_use_cases attribute (which the first pass copies through unchanged
and the second pass wraps in a singleton list). -/
def idempotentDomain : OfferData → Bool
  | .obj _ vp iuc => attrListOrFalsy vp && attrListOrFalsy iuc
  | _ => true

theorem coerceList_shape (v : PyV) : ∃ l, coerceList v = .vlist l := by
  cases v with
  | vlist l => exact ⟨l, rfl⟩
  | vstr s =>
    by_cases h : pyTruthy (PyV.vstr s)
    · exact ⟨[.vstr (pyStrOf (.vstr s))], by simp [coerceList, h]⟩
    · exact ⟨[], by simp [coerceList, h]⟩
  | vnone => exact ⟨[], rfl⟩

theorem coerceList_vlist (l : List PyV) : coerceList (.vlist l) = .vlist l := rfl

theorem attrOrEmptyList_shape (o : Option PyV) (h : attrListOrFalsy o = true) :
    ∃ l, attrOrEmptyList o = .vlist l := by
  match o with
  | none => exact ⟨[], rfl⟩
  | some (.vlist l) =>
    by_cases ht : pyTruthy (PyV.vlist l)
    · exact ⟨l, by simp [attrOrEmptyList, ht]⟩
    · exact ⟨[], by simp [attrOrEmptyList, ht]⟩
  | some (.vstr s) =>
    have hf : pyTruthy (PyV.vstr s) = false := by
      simpa [attrListOrFalsy] using h
    exact ⟨[], by simp [attrOrEmptyList, hf]⟩
  | some .vnone => exact ⟨[], by simp [attrOrEmptyList, pyTruthy]⟩

theorem normalize_canonical3 (n : PyV) (a b : List PyV) :
    _normalize_offer_data (.pydict
        [(kName, n), (kValueProps, .vlist a), (kIdealUseCases, .vlist b)])
      = [(kName, n), (kValueProps, .vlist a), (kIdealUseCases, .vlist b)] := rfl

theorem normalize_pydict_idem (d : PyDict) :
    _normalize_offer_data (.pydict (_normalize_offer_data (.pydict d)))
      = _normalize_offer_data (.pydict d) := by
  obtain ⟨la, hla⟩ := coerceList_shape (dictGetD d kValueProps (.vlist []))
  obtain ⟨lb, hlb⟩ := coerceList_shape (dictGetD d kIdealUseCases (.vlist []))
  have hne1 : (kIdealUseCases == kValueProps) = false := by decide
  simp only [_normalize_offer_data]
  rw [dictGetD_dictSet_ne _ _ _ _ _ hne1, dictGetD_dictSet_same,
    dictGetD_dictSet_same]
  rw [hla, hlb, coerceList_vlist, coerceList_vlist, ← hla, ← hlb]
  have hkey1 : dictHasKey
      (dictSet (dictSet d kValueProps (coerceList (dictGetD d kValueProps (.vlist []))))
        kIdealUseCases (coerceList (dictGetD d kIdealUseCases (.vlist []))))
      kValueProps = true :=
    dictHasKey_dictSet_mono _ _ _ _ (dictHasKey_dictSet_self _ _ _)
  have hget1 : dictGetD
      (dictSet (dictSet d kValueProps (coerceList (dictGetD d kValueProps (.vlist []))))
        kIdealUseCases (coerceList (dictGetD d kIdealUseCases (.vlist []))))
      kValueProps (.vlist [])
      = coerceList (dictGetD d kValueProps (.vlist [])) := by
    rw [dictGetD_dictSet_ne _ _ _ _ _ hne1, dictGetD_dictSet_same]
  rw [dictSet_self_of_getD _ _ _ _ hkey1 hget1]
  have hkey2 : dictHasKey
      (dictSet (dictSet d kValueProps (coerceList (dictGetD d kValueProps (.vlist []))))
        kIdealUseCases (coerceList (dictGetD d kIdealUseCases (.vlist []))))
      kIdealUseCases = true := dictHasKey_dictSet_self _ _ _
  have hget2 : dictGetD
      (dictSet (dictSet d kValueProps (coerceList (dictGetD d kValueProps (.vlist []))))
        kIdealUseCases (coerceList (dictGetD d kIdealUseCases (.vlist []))))
      kIdealUseCases (.vlist [])
      = coerceList (dictGetD d kIdealUseCases (.vlist [])) := by
    rw [dictGetD_dictSet_same]
  rw [dictSet_self_of_getD _ _ _ _ hkey2 hget2]

theorem normalize_idem_on_domain (x : OfferData) (h : idempotentDomain x = true) :
    _normalize_offer_data (.pydict (_normalize_offer_data x))
      = _normalize_offer_data x := by
  cases x with
  | pydict d => exact normalize_pydict_idem d
  | obj n vp iuc =>
    simp only [idempotentDomain, Bool.and_eq_true] at h
    obtain ⟨la, e1⟩ := attrOrEmptyList_shape vp h.1
    obtain ⟨lb, e2⟩ := attrOrEmptyList_shape iuc h.2
    show _normalize_offer_data (.pydict
        [(kName, n), (kValueProps, attrOrEmptyList vp),
         (kIdealUseCases, attrOrEmptyList iuc)])
      = [(kName, n), (kValueProps, attrOrEmptyList vp),
         (kIdealUseCases, attrOrEmptyList iuc)]
    rw [e1, e2]
    exact normalize_canonical3 n la lb
  | pylist items => exact normalize_canonical3 _ [] items
  | scalar s => exact normalize_canonical3 _ [] []

theorem getD_map_range {β : Type} (f : Nat → β) (d : β) (n k : Nat) (hk : k < n) :
    ((List.range n).map f).getD k d = f k := by
  rw [List.getD_eq_getElem?_getD, List.getElem?_map, List.getElem?_range hk]
  rfl

theorem getD_map_enum {α β : Type} [Inhabited α] (l : List α) (f : Nat × α → β)
    (d : β) (i : Nat) (hi : i < l.length) :
    (l.enum.map f).getD i d = f (i, l.getD i default) := by
  rw [List.getD_eq_getElem?_getD, List.getElem?_map, List.getElem?_enum,
    List.getElem?_eq_getElem hi]
  simp [List.getD_eq_getElem?_getD, List.getElem?_eq_getElem hi]

theorem attrOrEmptyList_vlist (l : List PyV) :
    attrOrEmptyList (some (.vlist l)) = .vlist l := by
  by_cases h : pyTruthy (PyV.vlist l)
  · simp [attrOrEmptyList, h]
  · have hnil : l = [] := by simpa [pyTruthy] using h
    simp [attrOrEmptyList, h, hnil]

/-- Specification-side scan of the use-case list, following the claim text
for the industry sub-score: the first exactly-equal entry scores 25 and
stops; otherwise the first entry whose whitespace-token set intersects the
industry's, or with a token of one contained in the other string, scores 10
and stops; a scan that exhausts the list scores 0.  Entries arrive already
lowercased and trimmed. -/
def industryScanSpec (ind : PyStr) : List PyStr → Int
  | [] => 0
  | u :: rest =>
    if ind = u then 25
    else if ((pySplitWs ind).any (fun t => (pySplitWs u).contains t))
        || ((pySplitWs ind).any (fun t => isSubstr t u))
        || ((pySplitWs u).any (fun t => isSubstr t ind)) then 10
    else industryScanSpec ind rest

/-- Specification-side industry sub-score (claim C5): lowercase-trim the
industry and every use case, scan in order; a missing industry or an empty
use-case list scores 0. -/
def industryScoreSpec (industry : PyStr) (useCases : List PyStr) : Int :=
  if industry.isEmpty || useCases.isEmpty then 0
  else industryScanSpec (pyStrip (pyLower industry))
      (useCases.map (fun u => pyStrip (pyLower u)))

theorem industryMatchLoop_eq_scan (il : PyStr) :
    ∀ ucs : List PyStr,
      industryMatchLoop il (ucs.map PyV.vstr)
        = industryScanSpec il (ucs.map (fun u => pyStrip (pyLower u))) := by
  intro ucs
  induction ucs with
  | nil => rfl
  | cons u rest ih =>
    simp only [List.map_cons, industryMatchLoop, industryScanSpec, pyStrOf]
    by_cases h1 : il = pyStrip (pyLower u)
    · rw [if_pos h1, if_pos h1]
      rfl
    · rw [if_neg h1, if_neg h1]
      by_cases h2 : ((pySplitWs il).any
          (fun t => (pySplitWs (pyStrip (pyLower u))).contains t)) = true
      · rw [if_pos h2]
        have hr : ((((pySplitWs il).any
              (fun t => (pySplitWs (pyStrip (pyLower u))).contains t))
            || ((pySplitWs il).any (fun t => isSubstr t (pyStrip (pyLower u)))))
            || ((pySplitWs (pyStrip (pyLower u))).any (fun t => isSubstr t il)))
            = true := by
          rw [h2, Bool.true_or, Bool.true_or]
        rw [if_pos hr]
        rfl
      · have h2f : ((pySplitWs il).any
            (fun t => (pySplitWs (pyStrip (pyLower u))).contains t)) = false := by
          rwa [Bool.not_eq_true] at h2
        simp only [h2f, Bool.false_or, Bool.false_eq_true, if_false]
        by_cases h3 : (((pySplitWs il).any (fun t => isSubstr t (pyStrip (pyLower u))))
            || ((pySplitWs (pyStrip (pyLower u))).any (fun t => isSubstr t il))) = true
        · rw [if_pos h3, if_pos h3]
          rfl
        · rw [if_neg h3, if_neg h3]
          exact ih

theorem dictGetD_canonical_iuc (a b c dflt : PyV) :
    dictGetD [(kName, a), (kValueProps, b), (kIdealUseCases, c)]
      kIdealUseCases dflt = c := rfl

/-- C4: the role sub-score is 30 when the lowercased-trimmed role contains a
decision-maker marker as a substring, else 15 when it contains an influencer
marker, else 0; the decision-maker check has priority, matching is
case-insensitive and substring-based, and the spec's examples hold:
"CEO" scores 30, "Senior Engineer" scores 15, "Intern" scores 0. -/
theorem role_score_matches_spec (role : PyStr) :
    _role_score role =
      (if decision_makers.any (fun dm => isSubstr dm (pyStrip (pyLower role))) then 30
       else if influencers.any (fun m => isSubstr m (pyStrip (pyLower role))) then 15
       else 0) ∧
    _role_score (chars "CEO") = 30 ∧
    _role_score (chars "Senior Engineer") = 15 ∧
    _role_score (chars "Intern") = 0 := by
  refine ⟨?_, by decide, by decide, by decide⟩
  cases role with
  | nil => decide
  | cons c cs => rfl

/-- C5: against a normalized offer with string use cases, the industry
sub-score is exactly the specification scan: first exact (lowercase-trim)
match scores 25 and stops, else first token-intersection or
token-substring match scores 10 and stops, else 0; a missing industry or an
empty use-case list scores 0 (all captured by `industryScoreSpec`). -/
theorem industry_score_matches_spec (industry : PyStr) (name vp : PyV)
    (ucs : List PyStr) :
    _industry_score industry
        (_normalize_offer_data (.obj name (some vp) (some (.vlist (ucs.map PyV.vstr)))))
      = industryScoreSpec industry ucs := by
  have hoff : _normalize_offer_data
      (.obj name (some vp) (some (.vlist (ucs.map PyV.vstr))))
      = [(kName, name), (kValueProps, attrOrEmptyList (some vp)),
         (kIdealUseCases, .vlist (ucs.map PyV.vstr))] := by
    show [(kName, name), (kValueProps, attrOrEmptyList (some vp)),
         (kIdealUseCases, attrOrEmptyList (some (.vlist (ucs.map PyV.vstr))))] = _
    rw [attrOrEmptyList_vlist]
  rw [hoff]
  unfold _industry_score industryScoreSpec
  by_cases hind : industry.isEmpty
  · simp [hind]
  · simp only [hind, List.isEmpty_cons, Bool.or_false, Bool.false_eq_true, if_false]
    rw [dictGetD_canonical_iuc]
    by_cases hucs : ucs.isEmpty
    · have hnil : ucs = [] := List.isEmpty_iff.mp hucs
      subst hnil
      simp [pyTruthy]
    · have hmapne : (ucs.map PyV.vstr).isEmpty = false := by
        cases ucs with
        | nil => simp at hucs
        | cons u r => rfl
      have hucsf : ucs.isEmpty = false := by
        cases ucs with
        | nil => simp at hucs
        | cons u r => rfl
      simp only [pyTruthy, hmapne, hucsf, Bool.not_false, Bool.or_false,
        Bool.false_eq_true, if_false]
      exact industryMatchLoop_eq_scan (pyStrip (pyLower industry)) ucs

/-- C6: the completeness sub-score is 10 exactly when all four of name,
role, company and industry are non-blank after trimming, and 0 otherwise —
it takes no other value (all-or-nothing, never a third amount). -/
theorem completeness_score_matches_spec (prospect : Lead) :
    (_completeness_score prospect = 10 ↔
      (pyStrip prospect.name ≠ [] ∧ pyStrip prospect.role ≠ [] ∧
       pyStrip prospect.company ≠ [] ∧ pyStrip prospect.industry ≠ [])) ∧
    (_completeness_score prospect = 10 ∨ _completeness_score prospect = 0) := by
  have hiff : (required_field_values prospect).countP
        (fun v => !(pyStrip v).isEmpty) = 4 ↔
      (pyStrip prospect.name ≠ [] ∧ pyStrip prospect.role ≠ [] ∧
       pyStrip prospect.company ≠ [] ∧ pyStrip prospect.industry ≠ []) := by
    rw [show (4 : Nat) = (required_field_values prospect).length from rfl,
      List.countP_eq_length]
    simp [required_field_values, List.isEmpty_iff]
  constructor
  · unfold _completeness_score
    by_cases h : (required_field_values prospect).countP
        (fun v => !(pyStrip v).isEmpty) = 4
    · rw [if_pos h]
      exact ⟨fun _ => hiff.mp h, fun _ => rfl⟩
    · rw [if_neg h]
      constructor
      · intro h0
        exact absurd h0 (by decide)
      · intro hr
        exact absurd (hiff.mpr hr) h
  · unfold _completeness_score
    by_cases h : (required_field_values prospect).countP
        (fun v => !(pyStrip v).isEmpty) = 4
    · rw [if_pos h]
      exact Or.inl rfl
    · rw [if_neg h]
      exact Or.inr rfl

/-- Specification-side parse of one expected ordinal (1-based `k`),
following the claim text: take the first non-blank line containing the
case-insensitive marker "PROSPECT k:"; intent High if the line contains
HIGH, else Medium if it contains MEDIUM, else Low; reasoning is the trimmed
text after the first dash, or the whole line without one; a missing marker
line yields the Low fallback with the reasoning string the code writes. -/
def specParseOne (lines : List PyStr) (k : Nat) : ScoreResult :=
  match lines.find? (fun line => isSubstr (prospectMarker k) (pyUpper line)) with
  | some line =>
      ⟨(if isSubstr (chars "HIGH") (pyUpper line) then chars "High"
        else if isSubstr (chars "MEDIUM") (pyUpper line) then chars "Medium"
        else chars "Low"),
       (if isSubstr (chars "HIGH") (pyUpper line) then 50
        else if isSubstr (chars "MEDIUM") (pyUpper line) then 30
        else 10),
       (if containsChar '-' line then pyStrip (afterFirstChar '-' line)
        else line)⟩
  | none => ⟨chars "Low", 10, chars "Could not parse AI response"⟩

/-- C7 counterexample: for an empty response and one expected lead the
marker line is absent and the emitted fallback reasoning is
"Could not parse AI response", not the claimed "could not parse response". -/
theorem parse_fallback_reasoning_cex :
    _parse_batch_response [] 1
      = [⟨chars "Low", 10, chars "Could not parse AI response"⟩] ∧
    (_parse_batch_response [] 1).getD 0 default
      ≠ ⟨chars "Low", 10, chars "could not parse response"⟩ := by
  decide

/-- C7 (amended): batch-response parsing returns exactly `n` results, and
the result for each 1-based ordinal is exactly the specification parse of
the non-blank stripped lines — first marker line wins, HIGH beats MEDIUM
beats the LOW default, dash-separated reasoning, per-ordinal Low fallback
with reasoning "Could not parse AI response" when the marker is absent. -/
theorem parse_batch_response_matches_spec (response : PyStr) (n k : Nat)
    (hk : k < n) :
    (_parse_batch_response response n).length = n ∧
    (_parse_batch_response response n).getD k default
      = specParseOne (nonBlankLines response) (k + 1) := by
  refine ⟨_parse_batch_response_length response n, ?_⟩
  unfold _parse_batch_response
  rw [getD_map_range _ _ _ _ hk]
  unfold parseProspect specParseOne
  cases hf : (nonBlankLines response).find?
      (fun line => isSubstr (prospectMarker (k + 1)) (pyUpper line)) with
  | none => rfl
  | some line =>
    by_cases hH : isSubstr (chars "HIGH") (pyUpper line) = true
    · simp only [hH, eq_self_iff_true, if_true]
      rfl
    · have hHf : isSubstr (chars "HIGH") (pyUpper line) = false := by
        rwa [Bool.not_eq_true] at hH
      by_cases hM : isSubstr (chars "MEDIUM") (pyUpper line) = true
      · simp only [hHf, Bool.false_eq_true, if_false, hM, eq_self_iff_true,
          if_true]
        rfl
      · have hMf : isSubstr (chars "MEDIUM") (pyUpper line) = false := by
          rwa [Bool.not_eq_true] at hM
        simp only [hHf, hMf, Bool.false_eq_true, if_false]
        rfl

theorem parse_batch_response_matches_spec_witness :
    (_parse_batch_response
        (chars "PROSPECT 1: HIGH - good fit") 1).length = 1 ∧
    (_parse_batch_response (chars "PROSPECT 1: HIGH - good fit") 1).getD 0 default
      = specParseOne (nonBlankLines (chars "PROSPECT 1: HIGH - good fit")) 1 :=
  parse_batch_response_matches_spec (chars "PROSPECT 1: HIGH - good fit") 1 0
    (by decide)

/-- C8 counterexample: normalization is not idempotent on every offer-like
input: for an attribute object whose value_props attribute is the truthy
non-list string "x", the first pass copies the string through and the
second pass wraps it in a singleton list, so normalize(normalize(x)) and
normalize(x) differ. -/
theorem normalize_idempotence_cex :
    _normalize_offer_data (.pydict (_normalize_offer_data
        (.obj (.vstr (chars "p")) (some (.vstr (chars "x"))) none)))
      ≠ _normalize_offer_data
          (.obj (.vstr (chars "p")) (some (.vstr (chars "x"))) none) := by
  decide

/-- C8 (amended): offer normalization is idempotent on every dict, list, or
scalar input, and on attribute objects whose value_props and
ideal_use_cases attributes are absent, falsy, or lists (only a truthy
non-list attribute value breaks idempotence); and applying it to an
already-canonical offer dict is a no-op. -/
theorem normalize_offer_idempotent (x : OfferData) (n : PyStr)
    (vp iuc : List PyV) (h : idempotentDomain x = true) :
    _normalize_offer_data (.pydict (_normalize_offer_data x))
        = _normalize_offer_data x ∧
    _normalize_offer_data (.pydict [(kName, .vstr n), (kValueProps, .vlist vp),
        (kIdealUseCases, .vlist iuc)])
      = [(kName, .vstr n), (kValueProps, .vlist vp),
         (kIdealUseCases, .vlist iuc)] :=
  ⟨normalize_idem_on_domain x h, normalize_canonical3 _ vp iuc⟩

theorem normalize_offer_idempotent_witness :
    _normalize_offer_data (.pydict (_normalize_offer_data (.pydict [])))
        = _normalize_offer_data (.pydict []) ∧
    _normalize_offer_data (.pydict [(kName, .vstr (chars "p")),
        (kValueProps, .vlist []), (kIdealUseCases, .vlist [])])
      = [(kName, .vstr (chars "p")), (kValueProps, .vlist []),
         (kIdealUseCases, .vlist [])] :=
  normalize_offer_idempotent (.pydict []) (chars "p") [] [] (by decide)

/-- An all-defaults lead used by the order counterexample. -/
def emptyLead : Lead := {}

/-- Eleven leads: two batches of sizes 10 and 1 under the engine's batch
size of 10. -/
def elevenLeads : List Lead := List.replicate 11 emptyLead

/-- A behaviour in which every batch future fails, carrying its own batch
index as the exception text, so each batch's contribution is identifiable. -/
def cexBehave : Nat → BatchBehavior := fun j => .futureError (toString j).data

/-- C1 is falsified by the code: the collection loop extends all_results in
future-completion order (as_completed), not keyed by batch position.  With
eleven leads (batches 0 and 1) and batch 1 completing first, the bulk
output differs from the one with the opposite completion order, and its
first element is batch 1's fallback — the result of lead 10, not lead 0. -/
theorem bulk_output_depends_on_completion_order :
    ([1, 0] : List Nat).Perm
        (List.range (pyChunks batch_size elevenLeads).length) ∧
    ai_intent_score_bulk elevenLeads (.pydict []) cexBehave [1, 0]
      ≠ ai_intent_score_bulk elevenLeads (.pydict []) cexBehave [0, 1] ∧
    (ai_intent_score_bulk elevenLeads (.pydict []) cexBehave [1, 0]).getD 0 default
      = batchFailed (chars "1") := by
  decide

/-- C2: bulk scoring returns exactly one result per input lead for every
completion order of the batch futures; the empty lead list returns the
empty list immediately; and when every external call fails, the full-length
result list consists of Low-intent score-10 fallbacks. -/
theorem bulk_scoring_length_invariant (leads : List Lead)
    (offer_data : OfferData) (behave : Nat → BatchBehavior)
    (completionOrder : List Nat)
    (h : completionOrder.Perm (List.range (pyChunks batch_size leads).length)) :
    (final_score_bulk leads offer_data behave completionOrder).length
        = leads.length ∧
    (ai_intent_score_bulk leads offer_data behave completionOrder).length
        = leads.length ∧
    final_score_bulk [] offer_data behave completionOrder = [] ∧
    ((∀ j, (behave j).isFail = true) →
      ∀ r ∈ ai_intent_score_bulk leads offer_data behave completionOrder,
        r.intent = chars "Low" ∧ r.score = 10) := by
  refine ⟨final_score_bulk_length_aux _ _ _ _ h,
    ai_intent_score_bulk_length _ _ _ _ h, rfl, ?_⟩
  intro hfail r hr
  obtain ⟨j, hj⟩ := mem_ai_intent_score_bulk _ _ _ _ _ hr
  have hlow := batchSegment_fail_mem _ _ (hfail j) _ hj
  exact ⟨hlow.1, hlow.2.1⟩

theorem bulk_scoring_length_invariant_witness :
    (final_score_bulk [emptyLead] (.pydict [])
        (fun _ : Nat => BatchBehavior.clientError []) [0]).length = 1 ∧
    (ai_intent_score_bulk [emptyLead] (.pydict [])
        (fun _ : Nat => BatchBehavior.clientError []) [0]).length = 1 ∧
    final_score_bulk [] (.pydict [])
        (fun _ : Nat => BatchBehavior.clientError []) [0] = [] ∧
    ((∀ j : Nat, ((fun _ : Nat => BatchBehavior.clientError []) j).isFail = true) →
      ∀ r ∈ ai_intent_score_bulk [emptyLead] (.pydict [])
          (fun _ : Nat => BatchBehavior.clientError []) [0],
        r.intent = chars "Low" ∧ r.score = 10) :=
  bulk_scoring_length_invariant [emptyLead] (.pydict [])
    (fun _ : Nat => BatchBehavior.clientError []) [0] (by decide)

/-- C3: the orchestrator is a total function (the embedding returns a plain
flatten of per-batch segments for every behaviour); a batch whose client
call raises contributes exactly one "AI unavailable" Low fallback per lead,
a batch whose future fails contributes exactly one "Batch failed" Low
fallback per lead, and changing the behaviour of batch j leaves every other
batch's segment unchanged. -/
theorem bulk_failure_absorption (ps : List Lead) (offer_data : OfferData)
    (behave behave' : Nat → BatchBehavior) (completionOrder : List Nat)
    (j : Nat) (hagree : ∀ k, k ≠ j → behave' k = behave k) :
    (∀ e, behave j = .clientError e →
      batchSegment ((pyChunks batch_size ps).getD j []) (behave j)
        = ((pyChunks batch_size ps).getD j []).map (fun _ => aiUnavailable e)) ∧
    (∀ e, behave j = .futureError e →
      batchSegment ((pyChunks batch_size ps).getD j []) (behave j)
        = ((pyChunks batch_size ps).getD j []).map (fun _ => batchFailed e)) ∧
    (∀ k, k ≠ j →
      batchSegment ((pyChunks batch_size ps).getD k []) (behave' k)
        = batchSegment ((pyChunks batch_size ps).getD k []) (behave k)) ∧
    ai_intent_score_bulk ps offer_data behave completionOrder
      = if ps.isEmpty then []
        else (completionOrder.map (fun k =>
            batchSegment ((pyChunks batch_size ps).getD k []) (behave k))).flatten := by
  refine ⟨?_, ?_, ?_, rfl⟩
  · intro e he
    rw [he]
    rfl
  · intro e he
    rw [he]
    rfl
  · intro k hk
    rw [hagree k hk]

theorem bulk_failure_absorption_witness :
    (∀ e, (fun _ : Nat => BatchBehavior.clientError (chars "boom")) 0 = .clientError e →
      batchSegment ((pyChunks batch_size [emptyLead]).getD 0 [])
          ((fun _ : Nat => BatchBehavior.clientError (chars "boom")) 0)
        = ((pyChunks batch_size [emptyLead]).getD 0 []).map
            (fun _ => aiUnavailable e)) ∧
    (∀ e, (fun _ : Nat => BatchBehavior.clientError (chars "boom")) 0 = .futureError e →
      batchSegment ((pyChunks batch_size [emptyLead]).getD 0 [])
          ((fun _ : Nat => BatchBehavior.clientError (chars "boom")) 0)
        = ((pyChunks batch_size [emptyLead]).getD 0 []).map
            (fun _ => batchFailed e)) ∧
    (∀ k, k ≠ 0 →
      batchSegment ((pyChunks batch_size [emptyLead]).getD k [])
          ((fun _ : Nat => BatchBehavior.clientError (chars "boom")) k)
        = batchSegment ((pyChunks batch_size [emptyLead]).getD k [])
            ((fun _ : Nat => BatchBehavior.clientError (chars "boom")) k)) ∧
    ai_intent_score_bulk [emptyLead] (.pydict [])
        (fun _ : Nat => BatchBehavior.clientError (chars "boom")) [0]
      = if ([emptyLead] : List Lead).isEmpty then []
        else (([0] : List Nat).map (fun k =>
            batchSegment ((pyChunks batch_size [emptyLead]).getD k [])
              ((fun _ : Nat => BatchBehavior.clientError (chars "boom")) k))).flatten :=
  bulk_failure_absorption [emptyLead] (.pydict [])
    (fun _ : Nat => BatchBehavior.clientError (chars "boom"))
    (fun _ : Nat => BatchBehavior.clientError (chars "boom")) [0] 0
    (fun _ _ => rfl)

/-- C9: for each position i the final result is exactly the i-th
classification result with the lead's rule score (against the normalized
offer) added to its score; intent and reasoning pass through unchanged; and
every classification result carries the fixed pairing
High with 50, Medium with 30, Low with 10. -/
theorem final_score_combination (leads : List Lead) (offer_data : OfferData)
    (behave : Nat → BatchBehavior) (completionOrder : List Nat) (i : Nat)
    (h : completionOrder.Perm (List.range (pyChunks batch_size leads).length))
    (hi : i < leads.length) :
    (final_score_bulk leads offer_data behave completionOrder).getD i default
      = { intent := ((ai_intent_score_bulk leads
            (.pydict (_normalize_offer_data offer_data)) behave
            completionOrder).getD i default).intent,
          score := calculate_rule_score (leads.getD i default)
              (_normalize_offer_data offer_data)
            + ((ai_intent_score_bulk leads
                (.pydict (_normalize_offer_data offer_data)) behave
                completionOrder).getD i default).score,
          reasoning := ((ai_intent_score_bulk leads
            (.pydict (_normalize_offer_data offer_data)) behave
            completionOrder).getD i default).reasoning } ∧
    (∀ r ∈ ai_intent_score_bulk leads (.pydict (_normalize_offer_data offer_data))
        behave completionOrder,
      r.intent = chars "High" ∧ r.score = 50 ∨
      r.intent = chars "Medium" ∧ r.score = 30 ∨
      r.intent = chars "Low" ∧ r.score = 10) := by
  constructor
  · unfold final_score_bulk
    have hne : leads.isEmpty = false := by
      cases leads with
      | nil => simp at hi
      | cons a l => rfl
    simp only [hne, Bool.false_eq_true, if_false]
    have hlen : i < (ai_intent_score_bulk leads
        (.pydict (_normalize_offer_data offer_data)) behave
        completionOrder).length := by
      rw [ai_intent_score_bulk_length _ _ _ _ h]
      exact hi
    rw [getD_map_enum _ _ _ _ hlen]
  · intro r hr
    exact mem_ai_bulk_shape _ _ _ _ _ hr

theorem final_score_combination_witness :
    (final_score_bulk [emptyLead] (.pydict [])
        (fun _ : Nat => BatchBehavior.clientError []) [0]).getD 0 default
      = { intent := ((ai_intent_score_bulk [emptyLead]
            (.pydict (_normalize_offer_data (.pydict [])))
            (fun _ : Nat => BatchBehavior.clientError [])
            [0]).getD 0 default).intent,
          score := calculate_rule_score (([emptyLead] : List Lead).getD 0 default)
              (_normalize_offer_data (.pydict []))
            + ((ai_intent_score_bulk [emptyLead]
                (.pydict (_normalize_offer_data (.pydict [])))
                (fun _ : Nat => BatchBehavior.clientError [])
                [0]).getD 0 default).score,
          reasoning := ((ai_intent_score_bulk [emptyLead]
            (.pydict (_normalize_offer_data (.pydict [])))
            (fun _ : Nat => BatchBehavior.clientError [])
            [0]).getD 0 default).reasoning } ∧
    (∀ r ∈ ai_intent_score_bulk [emptyLead]
        (.pydict (_normalize_offer_data (.pydict [])))
        (fun _ : Nat => BatchBehavior.clientError []) [0],
      r.intent = chars "High" ∧ r.score = 50 ∨
      r.intent = chars "Medium" ∧ r.score = 30 ∨
      r.intent = chars "Low" ∧ r.score = 10) :=
  final_score_combination [emptyLead] (.pydict [])
    (fun _ : Nat => BatchBehavior.clientError []) [0] 0 (by decide) (by decide)

/-- C10: every result returned by bulk scoring has score at least 10 and
hence strictly positive: the classification component is always exactly one
of 50, 30 or 10 (every fallback path uses the Low score 10) and the rule
score is never negative. -/
theorem final_scores_at_least_ten (leads : List Lead) (offer_data : OfferData)
    (behave : Nat → BatchBehavior) (completionOrder : List Nat) :
    (∀ r ∈ final_score_bulk leads offer_data behave completionOrder,
        10 ≤ r.score ∧ 0 < r.score) ∧
    (∀ r ∈ ai_intent_score_bulk leads offer_data behave completionOrder,
        r.score = 50 ∨ r.score = 30 ∨ r.score = 10) ∧
    (∀ (lead : Lead) (d : PyDict), 0 ≤ calculate_rule_score lead d) := by
  refine ⟨?_, ?_, fun lead d => calculate_rule_score_nonneg lead d⟩
  · intro r hr
    unfold final_score_bulk at hr
    by_cases hl : leads.isEmpty
    · simp [hl] at hr
    · simp only [hl, Bool.false_eq_true, if_false] at hr
      rw [List.mem_map] at hr
      obtain ⟨p, hp, rfl⟩ := hr
      have hp2 := List.snd_mem_of_mem_enum hp
      have hshape := mem_ai_bulk_shape _ _ _ _ _ hp2
      have hrule := calculate_rule_score_nonneg (leads.getD p.1 default)
        (_normalize_offer_data offer_data)
      have hs10 : (10 : Int) ≤ p.2.score := by
        rcases hshape with ⟨_, hs⟩ | ⟨_, hs⟩ | ⟨_, hs⟩ <;> rw [hs] <;> norm_num
      constructor
      · show (10 : Int) ≤ calculate_rule_score (leads.getD p.1 default)
            (_normalize_offer_data offer_data) + p.2.score
        omega
      · show (0 : Int) < calculate_rule_score (leads.getD p.1 default)
            (_normalize_offer_data offer_data) + p.2.score
        omega
  · intro r hr
    rcases mem_ai_bulk_shape _ _ _ _ _ hr with ⟨_, hs⟩ | ⟨_, hs⟩ | ⟨_, hs⟩
    · exact Or.inl hs
    · exact Or.inr (Or.inl hs)
    · exact Or.inr (Or.inr hs)
